import Mathlib

/-!
Verification of the value-conversion core of go-plist (`type.go`).

The Go function `valueToPlistValue` walks a `reflect.Value` and builds a
`plistValue` tree.  Here the relevant fragment of Go's runtime values is
embedded as the inductive `RValue`; Go machine integers are carried as
`Int`/`Nat` (the source never performs arithmetic on them, it only stores
`val.Int()` / `val.Uint()` into the tree).  A Go `(*plistValue, error)` pair,
together with the possibility of a runtime panic, is embedded as `Res`:
`ok none` is Go's `(nil, nil)`, `ok (some v)` a built node, `err e` a
returned error, and `panic m` a runtime panic (e.g. `reflect.Value.Type`
called on the zero `Value`).
-/

set_option autoImplicit false

/-- Width of a Go signed-integer kind (`Int`, `Int8` … `Int64`). -/
inductive IntW where
  | i | i8 | i16 | i32 | i64
deriving DecidableEq

/-- Width of a Go unsigned-integer kind (`Uint`, `Uint8` … `Uint64`).
`Uintptr` is a separate `reflect.Kind` in Go and is kept separate here,
because line 118 of `type.go` lists only `Uint` … `Uint64`. -/
inductive UintW where
  | u | u8 | u16 | u32 | u64
deriving DecidableEq

/-- Width of a Go floating-point kind (`Float32`, `Float64`). -/
inductive FloatW where
  | f32 | f64
deriving DecidableEq

/-- Which receiver (if any) a struct type's `MarshalText` method has.
With a value receiver both `T` and `*T` implement `encoding.TextMarshaler`;
with a pointer receiver only `*T` does; `Recv.none` means the type has no
such method. -/
inductive Recv where
  | none | value | pointer
deriving DecidableEq

/-- The fragment of Go types (`reflect.Type`) that `type.go` inspects.
A struct type is identified by its name and the receiver kind of its
optional `MarshalText` method; field layout lives on the value side, see
`RValue.strct`.  `func`, `chan` and `complex` stand for the kinds that the
switch of lines 113-162 leaves to its `default` case. -/
inductive GoType where
  | string
  | int (w : IntW)
  | uint (w : UintW)
  | uintptr
  | float (w : FloatW)
  | bool
  | ptr (elem : GoType)
  | iface
  | strct (name : String) (recv : Recv)
  | slice (elem : GoType)
  | array (elem : GoType)
  | map (key : GoType) (value : GoType)
  | func
  | chan
  | complex
deriving DecidableEq

/-- Errors returned by the conversion: `unknownType t` embeds
`&UnknownTypeError{Type: typ}` (carrying the offending type), and
`custom s` embeds any other `error` value (a `MarshalText` failure, or
`errors.New` as on line 163). -/
inductive GoErr where
  | unknownType (t : GoType)
  | custom (s : String)
deriving DecidableEq

/-- The Go runtime values (`reflect.Value`) that the converter can receive.
Scalar payloads are the results of `val.String()`, `val.Int()`, `val.Uint()`,
`val.Float()` (floats carried by an abstract numeric stand-in, no claim
computes with them) and `val.Bool()`.  `ptr`/`iface` hold `none` when nil.

Modelled from the spec: `getTypeInfo` (the external Type-Info Provider of
spec section 6, file `typeinfo.go`, not present under `src/`) resolves a
struct type to an ordered list of field descriptors
`{exportName, omitIfEmpty, accessor}`; accordingly a struct value carries
that ordered descriptor list with each accessor's extracted field value
inlined (`Option.none` standing for an invalid extracted `reflect.Value`).
`mres` is the output the struct's `MarshalText` method would produce
(meaningful only when `recv` is not `Recv.none`). -/
inductive RValue where
  | str (s : String)
  | intv (w : IntW) (n : Int)
  | uintv (w : UintW) (n : Nat)
  | uintptrv (n : Nat)
  | floatv (w : FloatW) (x : Int)
  | boolv (b : Bool)
  | ptr (elemTy : GoType) (e : Option RValue)
  | iface (e : Option RValue)
  | strct (name : String) (recv : Recv) (mres : Except GoErr String)
      (fields : List (String × Bool × Option RValue))
  | slice (elemTy : GoType) (elems : List RValue)
  | array (elemTy : GoType) (elems : List RValue)
  | mapv (keyTy valTy : GoType) (entries : List (String × RValue))
  | funcv
  | chanv
  | complexv

/-- One field descriptor of the Type-Info Provider together with the
extracted field value: `(exportName, omitIfEmpty, extracted value)`. -/
abbrev FieldDesc := String × Bool × Option RValue

/-- The intermediate tree `plistValue`.  The Go struct is a `kind` tag plus
an `interface{}` payload; the payload's dynamic type splits `Integer` into
`intS` (payload `int64`, line 117) and `intU` (payload `uint64`, line 119).
Array and Dictionary payloads hold `*plistValue` pointers, hence
`Option PValue` entries (`none` = a nil pointer stored in the container). -/
inductive PValue where
  | dict (entries : List (String × Option PValue))
  | arr (elems : List (Option PValue))
  | str (s : String)
  | intS (n : Int)
  | intU (n : Nat)
  | real (x : Int)
  | boolean (b : Bool)
  | data (bytes : List Nat)

/-- Outcome of a Go call returning `(α, error)`, extended with runtime
panics.  `ok` carries the success payload, `err` a non-nil error, `panic`
an unrecovered runtime panic. -/
inductive Res (α : Type) where
  | panic (msg : String)
  | err (e : GoErr)
  | ok (v : α)

/-- Message of the panic raised by `reflect.Value.Type` on the zero Value. -/
def typeOnZeroValuePanic : String := "reflect: call of reflect.Value.Type on zero Value"

/-- Message of the panic raised by invoking `MarshalText` through a nil
pointer (the value method's wrapper dereferences the nil receiver). -/
def nilReceiverPanic : String := "value method called using nil pointer"

/-- The `reflect.Type` of a (valid) runtime value, `val.Type()`. -/
def rtype : RValue → GoType
  | .str _ => .string
  | .intv w _ => .int w
  | .uintv w _ => .uint w
  | .uintptrv _ => .uintptr
  | .floatv w _ => .float w
  | .boolv _ => .bool
  | .ptr t _ => .ptr t
  | .iface _ => .iface
  | .strct n r _ _ => .strct n r
  | .slice t _ => .slice t
  | .array t _ => .array t
  | .mapv k v _ => .map k v
  | .funcv => .func
  | .chanv => .chan
  | .complexv => .complex

/-- Embedding of `isEmptyValue` (lines 35-51 of `type.go`): the switch on
`v.Kind()`. -/
def isEmptyValue : RValue → Bool
  | .array _ es => es.length == 0
  | .mapv _ _ en => en.length == 0
  | .slice _ es => es.length == 0
  | .str s => s.length == 0
  | .boolv b => !b
  | .intv _ n => n == 0
  | .uintv _ n => n == 0
  | .uintptrv n => n == 0
  | .floatv _ x => x == 0
  | .iface e => e.isNone
  | .ptr _ e => e.isNone
  | _ => false

/-- `typ.Implements(textMarshalerType)` (line 93): a struct type implements
`encoding.TextMarshaler` iff its `MarshalText` has a value receiver; a
pointer-to-struct type implements it iff the struct has the method with
either receiver (Go method sets). -/
def implementsTM : GoType → Bool
  | .strct _ r => r == Recv.value
  | .ptr (.strct _ r) => !(r == Recv.none)
  | _ => false

/-- `pv.Type().Implements(textMarshalerType)` for `pv := val.Addr()`
(line 98): `*T` implements the interface iff `T` has the method with either
receiver. -/
def ptrImplementsTM : GoType → Bool
  | .strct _ r => !(r == Recv.none)
  | _ => false

/-- Result of invoking `MarshalText` on a value whose type implements
`encoding.TextMarshaler`: a struct value yields its stored `mres`; a method
call through a non-nil pointer dereferences to the pointee; through a nil
pointer there is no receiver value (`Option.none`, a runtime panic). -/
def marshalText : RValue → Option (Except GoErr String)
  | .strct _ _ m _ => some m
  | .ptr _ (some inner) => marshalText inner
  | _ => none

/-- Embedding of `stringMarshalableToPlistValue` (lines 57-63) applied to a
value carrying the marshaler: `MarshalText` errors are returned unchanged
(line 60), its output becomes a String-kind node (line 62). -/
def marshalOutcome (rv : RValue) : Res (Option PValue) :=
  match marshalText rv with
  | none => Res.panic nilReceiverPanic
  | some (Except.error e) => Res.err e
  | some (Except.ok s) => Res.ok (some (PValue.str s))

/-- Byte extraction shared by `val.Bytes()` and the `reflect.Copy` branch
(lines 126-132): for a sequence whose element kind is `Uint8` every element
is a `uintv`, and both branches observe the same byte list.  The `0`
fallback is never hit on a value that is well typed in Go's sense. -/
def bytesOf : List RValue → List Nat
  | [] => []
  | .uintv _ n :: rest => n :: bytesOf rest
  | _ :: rest => 0 :: bytesOf rest

/-- Wrap an element-list outcome as the Array node of line 143 (errors and
panics pass through, aborting with no partial Array). -/
def wrapArray : Res (List (Option PValue)) → Res (Option PValue)
  | .panic m => .panic m
  | .err e => .err e
  | .ok vs => .ok (some (PValue.arr vs))

/-- Wrap an entry-list outcome as the Dictionary node of lines 82 and 159
(errors and panics pass through, aborting with no partial Dictionary). -/
def wrapDict : Res (List (String × Option PValue)) → Res (Option PValue)
  | .panic m => .panic m
  | .err e => .err e
  | .ok ds => .ok (some (PValue.dict ds))

mutual

/-- Embedding of `valueToPlistValue` (lines 85-163).  `addr` is the
`CanAddr` flag of the incoming `reflect.Value` (`CanInterface` is modelled
as true: values reached through exported access).  The argument is
`Option RValue`, `none` being the invalid zero `reflect.Value`; line 86
(`typ := val.Type()`) runs before the `!val.IsValid()` check of line 88, so
an invalid argument panics and line 88 never fires (for a valid argument
its condition is false). -/
def valueToPlistValue (addr : Bool) (v : Option RValue) : Res (Option PValue) :=
  match v with
  | none => Res.panic typeOnZeroValuePanic
  | some rv =>
    -- line 88: `if !val.IsValid() { return nil, nil }` — val is valid here
    if implementsTM (rtype rv) then
      -- lines 93-95: value-level text-marshaler probe, checked first
      marshalOutcome rv
    else if addr && ptrImplementsTM (rtype rv) then
      -- lines 96-101: address-level probe, only when the value is addressable
      marshalOutcome rv
    else
      descend addr rv
termination_by 6 * sizeOf v + 3

/-- Lines 103-107 of `valueToPlistValue`: descend one level into pointers
or interfaces, in place (no recursive re-entry); `val.Elem()` of a nil
pointer or nil interface is the zero `Value`, so `typ = val.Type()` panics.
`Elem` of a pointer is addressable, of an interface it is not. -/
def descend (addr : Bool) (rv : RValue) : Res (Option PValue) :=
  match rv with
  | RValue.ptr _ none => Res.panic typeOnZeroValuePanic
  | RValue.ptr _ (some inner) => afterIndirection true inner
  | RValue.iface none => Res.panic typeOnZeroValuePanic
  | RValue.iface (some inner) => afterIndirection false inner
  | other => afterIndirection addr other
termination_by 6 * sizeOf rv + 2

/-- Lines 109-163 of `valueToPlistValue`: the struct check, the kind
switch, and the trailing `return nil, errors.New` of line 163 (taken only
when `kindSwitch` yields no outcome). -/
def afterIndirection (addr : Bool) (rv : RValue) : Res (Option PValue) :=
  match rv with
  | RValue.strct _ _ _ fields =>
    -- lines 109-111
    structToPlistValue addr fields
  | other =>
    match kindSwitch addr other with
    | some out => out
    | none => Res.err (GoErr.custom ("Wat"))
termination_by 6 * sizeOf rv + 1

/-- The switch on `typ.Kind()` (lines 113-162).  Every case of the Go
switch, its `default` included, returns, so every arm here is `some`; a
`none` would correspond to falling through to line 163. -/
def kindSwitch (addr : Bool) (rv : RValue) : Option (Res (Option PValue)) :=
  match rv with
  | RValue.str s => some (Res.ok (some (PValue.str s)))
  | RValue.intv _ n => some (Res.ok (some (PValue.intS n)))
  | RValue.uintv _ n => some (Res.ok (some (PValue.intU n)))
  | RValue.floatv _ x => some (Res.ok (some (PValue.real x)))
  | RValue.boolv b => some (Res.ok (some (PValue.boolean b)))
  | RValue.slice et elems =>
    if et = GoType.uint UintW.u8 then
      -- lines 125-133: `val.Bytes()` when addressable, else `reflect.Copy`;
      -- in a pure embedding both branches observe the same byte list
      some (Res.ok (some (PValue.data (if addr then bytesOf elems else bytesOf elems))))
    else
      -- lines 134-143: slice elements are always addressable
      some (wrapArray (convertElements true elems))
  | RValue.array et elems =>
    if et = GoType.uint UintW.u8 then
      some (Res.ok (some (PValue.data (if addr then bytesOf elems else bytesOf elems))))
    else
      -- array elements inherit the array's addressability
      some (wrapArray (convertElements addr elems))
  | RValue.mapv kt vt entries =>
    if kt = GoType.string then
      -- lines 150-159: values obtained by `MapIndex` are never addressable
      some (wrapDict (convertEntries entries))
    else
      -- lines 146-148
      some (Res.err (GoErr.unknownType (GoType.map kt vt)))
  | _ => some (Res.err (GoErr.unknownType (rtype rv)))
termination_by 6 * sizeOf rv

/-- The element loop of lines 135-142: convert each element in order,
returning the first error or panic with no partial list. -/
def convertElements (eaddr : Bool) (elems : List RValue) : Res (List (Option PValue)) :=
  match elems with
  | [] => Res.ok []
  | e :: rest =>
    match valueToPlistValue eaddr (some e) with
    | Res.panic m => Res.panic m
    | Res.err er => Res.err er
    | Res.ok pv =>
      match convertElements eaddr rest with
      | Res.panic m => Res.panic m
      | Res.err er => Res.err er
      | Res.ok pvs => Res.ok (pv :: pvs)
termination_by 6 * sizeOf elems + 4

/-- The map loop of lines 151-158: convert each entry's value in order,
returning the first error or panic with no partial list. -/
def convertEntries (entries : List (String × RValue)) : Res (List (String × Option PValue)) :=
  match entries with
  | [] => Res.ok []
  | (k, v) :: rest =>
    match valueToPlistValue false (some v) with
    | Res.panic m => Res.panic m
    | Res.err er => Res.err er
    | Res.ok pv =>
      match convertEntries rest with
      | Res.panic m => Res.panic m
      | Res.err er => Res.err er
      | Res.ok ds => Res.ok ((k, pv) :: ds)
termination_by 6 * sizeOf entries + 4

/-- Embedding of `structToPlistValue` (lines 65-83): fold the descriptor
list and wrap the entries as a Dictionary. -/
def structToPlistValue (addr : Bool) (fields : List FieldDesc) : Res (Option PValue) :=
  match structFields addr fields with
  | Res.panic m => Res.panic m
  | Res.err e => Res.err e
  | Res.ok ds => Res.ok (some (PValue.dict ds))
termination_by 6 * sizeOf fields + 5

/-- The field loop of lines 69-80: skip a descriptor when the extracted
value is invalid, or when its omit-if-empty flag is set and `isEmptyValue`
holds; otherwise convert the field value (a field of an addressable struct
is addressable), aborting on the first error. -/
def structFields (addr : Bool) (fields : List FieldDesc) : Res (List (String × Option PValue)) :=
  match fields with
  | [] => Res.ok []
  | (n, om, fv) :: rest =>
    match fv with
    | none => structFields addr rest
    | some frv =>
      if om && isEmptyValue frv then structFields addr rest
      else
        match valueToPlistValue addr (some frv) with
        | Res.panic m => Res.panic m
        | Res.err er => Res.err er
        | Res.ok pv =>
          match structFields addr rest with
          | Res.panic m => Res.panic m
          | Res.err er => Res.err er
          | Res.ok ds => Res.ok ((n, pv) :: ds)
termination_by 6 * sizeOf fields + 4

end

/-- Success payload of a conversion outcome (`none` on error or panic);
used only to phrase "the recursively converted elements" in theorems whose
hypotheses guarantee success. -/
def resVal : Res (Option PValue) → Option PValue
  | .ok v => v
  | _ => none

/-- Predicate that a conversion outcome is a success. -/
def isOkRes (r : Res (Option PValue)) : Prop :=
  ∃ v, r = Res.ok v

/-- Follows the spec's words (section 4.1, Array case and section 7):
convert each element in order; the first error encountered immediately
aborts the entire operation, with no partial result. -/
def specEach (f : RValue → Res (Option PValue)) : List RValue → Res (List (Option PValue))
  | [] => .ok []
  | x :: xs =>
    match f x with
    | .panic m => .panic m
    | .err e => .err e
    | .ok v =>
      match specEach f xs with
      | .panic m => .panic m
      | .err e => .err e
      | .ok vs => .ok (v :: vs)

/-- Follows the spec's words (section 4.1, Dictionary case): convert each
mapping entry's value, keeping its key; the first failure aborts the whole
operation. -/
def specEachEntry (f : RValue → Res (Option PValue)) :
    List (String × RValue) → Res (List (String × Option PValue))
  | [] => .ok []
  | (k, x) :: xs =>
    match f x with
    | .panic m => .panic m
    | .err e => .err e
    | .ok v =>
      match specEachEntry f xs with
      | .panic m => .panic m
      | .err e => .err e
      | .ok vs => .ok ((k, v) :: vs)

/-- Follows the spec's words (section 4.3): the value's length, when the
value is "a sequence, mapping, or text value". -/
def specLength : RValue → Option Nat
  | .slice _ es => some es.length
  | .array _ es => some es.length
  | .mapv _ _ en => some en.length
  | .str s => some s.length
  | _ => none

/-- Follows the spec's words (section 4.3): the value's numeric magnitude,
when the value is numeric (signed, unsigned, or floating point). -/
def specNumeric : RValue → Option Int
  | .intv _ n => some n
  | .uintv _ n => some (n : Int)
  | .uintptrv n => some (n : Int)
  | .floatv _ x => some x
  | _ => none

/-- Follows the spec's words (section 4.3): whether a nullable/optional
reference is absent, when the value is such a reference. -/
def specAbsent : RValue → Option Bool
  | .ptr _ e => some e.isNone
  | .iface e => some e.isNone
  | _ => none

/-- Follows the spec's words (section 4.3): a sequence, mapping, or text
value is empty iff its length is zero; a boolean is empty iff false; any
numeric value is empty iff it equals zero; a nullable/optional reference is
empty iff absent; every other kind is never considered empty. -/
def isEmptySpec (v : RValue) : Bool :=
  match specLength v with
  | some l => l == 0
  | none =>
    match v with
    | .boolv b => !b
    | _ =>
      match specNumeric v with
      | some n => n == 0
      | none =>
        match specAbsent v with
        | some a => a
        | none => false

/-- Follows the spec's words (section 4.2): for each field descriptor, in
order: skip if the extracted value is invalid, or if "omit if empty" is set
and the Emptiness Predicate judges the value empty; otherwise convert it,
the first failure aborting the whole record conversion. -/
def specStructFold (addr : Bool) : List FieldDesc → Res (List (String × Option PValue))
  | [] => .ok []
  | (n, om, fv) :: rest =>
    match fv with
    | none => specStructFold addr rest
    | some frv =>
      if om && isEmptySpec frv then specStructFold addr rest
      else
        match valueToPlistValue addr (some frv) with
        | .panic m => .panic m
        | .err e => .err e
        | .ok pv =>
          match specStructFold addr rest with
          | .panic m => .panic m
          | .err e => .err e
          | .ok ds => .ok ((n, pv) :: ds)

theorem vtpv_invalid (a : Bool) :
    valueToPlistValue a none = Res.panic typeOnZeroValuePanic := by
  simp [valueToPlistValue]

theorem vtpv_str (a : Bool) (s : String) :
    valueToPlistValue a (some (RValue.str s)) = Res.ok (some (PValue.str s)) := by
  simp [valueToPlistValue, descend, afterIndirection, kindSwitch, implementsTM,
    ptrImplementsTM, rtype]

theorem vtpv_int (a : Bool) (w : IntW) (n : Int) :
    valueToPlistValue a (some (RValue.intv w n)) = Res.ok (some (PValue.intS n)) := by
  simp [valueToPlistValue, descend, afterIndirection, kindSwitch, implementsTM,
    ptrImplementsTM, rtype]

theorem vtpv_uint (a : Bool) (w : UintW) (n : Nat) :
    valueToPlistValue a (some (RValue.uintv w n)) = Res.ok (some (PValue.intU n)) := by
  simp [valueToPlistValue, descend, afterIndirection, kindSwitch, implementsTM,
    ptrImplementsTM, rtype]

theorem vtpv_float (a : Bool) (w : FloatW) (x : Int) :
    valueToPlistValue a (some (RValue.floatv w x)) = Res.ok (some (PValue.real x)) := by
  simp [valueToPlistValue, descend, afterIndirection, kindSwitch, implementsTM,
    ptrImplementsTM, rtype]

theorem vtpv_bool (a : Bool) (b : Bool) :
    valueToPlistValue a (some (RValue.boolv b)) = Res.ok (some (PValue.boolean b)) := by
  simp [valueToPlistValue, descend, afterIndirection, kindSwitch, implementsTM,
    ptrImplementsTM, rtype]

theorem vtpv_marshal (a : Bool) (rv : RValue) (h : implementsTM (rtype rv) = true) :
    valueToPlistValue a (some rv) = marshalOutcome rv := by
  simp [valueToPlistValue, h]

theorem vtpv_addr_marshal (rv : RValue) (h1 : implementsTM (rtype rv) = false)
    (h2 : ptrImplementsTM (rtype rv) = true) :
    valueToPlistValue true (some rv) = marshalOutcome rv := by
  simp [valueToPlistValue, h1, h2]

theorem vtpv_no_marshal (a : Bool) (rv : RValue)
    (h1 : implementsTM (rtype rv) = false)
    (h2 : (a && ptrImplementsTM (rtype rv)) = false) :
    valueToPlistValue a (some rv) = descend a rv := by
  simp [valueToPlistValue, h1, h2]

theorem vtpv_ptr_nil (a : Bool) (t : GoType) (h : implementsTM (GoType.ptr t) = false) :
    valueToPlistValue a (some (RValue.ptr t none)) = Res.panic typeOnZeroValuePanic := by
  have h1 : implementsTM (rtype (RValue.ptr t none)) = false := by
    simpa [rtype] using h
  have h2 : (a && ptrImplementsTM (rtype (RValue.ptr t none))) = false := by
    simp [ptrImplementsTM, rtype]
  rw [vtpv_no_marshal a _ h1 h2]
  simp [descend]

theorem vtpv_ptr_some (a : Bool) (t : GoType) (inner : RValue)
    (h : implementsTM (GoType.ptr t) = false) :
    valueToPlistValue a (some (RValue.ptr t (some inner))) = afterIndirection true inner := by
  have h1 : implementsTM (rtype (RValue.ptr t (some inner))) = false := by
    simpa [rtype] using h
  have h2 : (a && ptrImplementsTM (rtype (RValue.ptr t (some inner)))) = false := by
    simp [ptrImplementsTM, rtype]
  rw [vtpv_no_marshal a _ h1 h2]
  simp [descend]

theorem vtpv_iface_nil (a : Bool) :
    valueToPlistValue a (some (RValue.iface none)) = Res.panic typeOnZeroValuePanic := by
  have h1 : implementsTM (rtype (RValue.iface none)) = false := by simp [implementsTM, rtype]
  have h2 : (a && ptrImplementsTM (rtype (RValue.iface none))) = false := by
    simp [ptrImplementsTM, rtype]
  rw [vtpv_no_marshal a _ h1 h2]
  simp [descend]

theorem vtpv_iface_some (a : Bool) (inner : RValue) :
    valueToPlistValue a (some (RValue.iface (some inner))) = afterIndirection false inner := by
  have h1 : implementsTM (rtype (RValue.iface (some inner))) = false := by
    simp [implementsTM, rtype]
  have h2 : (a && ptrImplementsTM (rtype (RValue.iface (some inner)))) = false := by
    simp [ptrImplementsTM, rtype]
  rw [vtpv_no_marshal a _ h1 h2]
  simp [descend]

theorem vtpv_struct (a : Bool) (nm : String) (m : Except GoErr String)
    (fields : List FieldDesc) :
    valueToPlistValue a (some (RValue.strct nm Recv.none m fields)) =
      structToPlistValue a fields := by
  have h1 : implementsTM (rtype (RValue.strct nm Recv.none m fields)) = false := by
    simp [implementsTM, rtype]
  have h2 : (a && ptrImplementsTM (rtype (RValue.strct nm Recv.none m fields))) = false := by
    simp [ptrImplementsTM, rtype]
  rw [vtpv_no_marshal a _ h1 h2]
  simp [descend, afterIndirection]

theorem vtpv_slice_bytes (a : Bool) (elems : List RValue) :
    valueToPlistValue a (some (RValue.slice (GoType.uint UintW.u8) elems)) =
      Res.ok (some (PValue.data (bytesOf elems))) := by
  have h1 : implementsTM (rtype (RValue.slice (GoType.uint UintW.u8) elems)) = false := by
    simp [implementsTM, rtype]
  have h2 : (a && ptrImplementsTM (rtype (RValue.slice (GoType.uint UintW.u8) elems))) = false := by
    simp [ptrImplementsTM, rtype]
  rw [vtpv_no_marshal a _ h1 h2]
  simp [descend, afterIndirection, kindSwitch]

theorem vtpv_slice_gen (a : Bool) (et : GoType) (elems : List RValue)
    (h : ¬ et = GoType.uint UintW.u8) :
    valueToPlistValue a (some (RValue.slice et elems)) =
      wrapArray (convertElements true elems) := by
  have h1 : implementsTM (rtype (RValue.slice et elems)) = false := by
    simp [implementsTM, rtype]
  have h2 : (a && ptrImplementsTM (rtype (RValue.slice et elems))) = false := by
    simp [ptrImplementsTM, rtype]
  rw [vtpv_no_marshal a _ h1 h2]
  simp [descend, afterIndirection, kindSwitch, h]

theorem vtpv_array_bytes (a : Bool) (elems : List RValue) :
    valueToPlistValue a (some (RValue.array (GoType.uint UintW.u8) elems)) =
      Res.ok (some (PValue.data (bytesOf elems))) := by
  have h1 : implementsTM (rtype (RValue.array (GoType.uint UintW.u8) elems)) = false := by
    simp [implementsTM, rtype]
  have h2 : (a && ptrImplementsTM (rtype (RValue.array (GoType.uint UintW.u8) elems))) = false := by
    simp [ptrImplementsTM, rtype]
  rw [vtpv_no_marshal a _ h1 h2]
  simp [descend, afterIndirection, kindSwitch]

theorem vtpv_array_gen (a : Bool) (et : GoType) (elems : List RValue)
    (h : ¬ et = GoType.uint UintW.u8) :
    valueToPlistValue a (some (RValue.array et elems)) =
      wrapArray (convertElements a elems) := by
  have h1 : implementsTM (rtype (RValue.array et elems)) = false := by
    simp [implementsTM, rtype]
  have h2 : (a && ptrImplementsTM (rtype (RValue.array et elems))) = false := by
    simp [ptrImplementsTM, rtype]
  rw [vtpv_no_marshal a _ h1 h2]
  simp [descend, afterIndirection, kindSwitch, h]

theorem vtpv_map_string (a : Bool) (vt : GoType) (entries : List (String × RValue)) :
    valueToPlistValue a (some (RValue.mapv GoType.string vt entries)) =
      wrapDict (convertEntries entries) := by
  have h1 : implementsTM (rtype (RValue.mapv GoType.string vt entries)) = false := by
    simp [implementsTM, rtype]
  have h2 : (a && ptrImplementsTM (rtype (RValue.mapv GoType.string vt entries))) = false := by
    simp [ptrImplementsTM, rtype]
  rw [vtpv_no_marshal a _ h1 h2]
  simp [descend, afterIndirection, kindSwitch]

theorem vtpv_map_nonstring (a : Bool) (kt vt : GoType) (entries : List (String × RValue))
    (h : ¬ kt = GoType.string) :
    valueToPlistValue a (some (RValue.mapv kt vt entries)) =
      Res.err (GoErr.unknownType (GoType.map kt vt)) := by
  have h1 : implementsTM (rtype (RValue.mapv kt vt entries)) = false := by
    simp [implementsTM, rtype]
  have h2 : (a && ptrImplementsTM (rtype (RValue.mapv kt vt entries))) = false := by
    simp [ptrImplementsTM, rtype]
  rw [vtpv_no_marshal a _ h1 h2]
  simp [descend, afterIndirection, kindSwitch, h]

theorem isEmpty_eq_spec (v : RValue) : isEmptyValue v = isEmptySpec v := by
  cases v <;>
    simp [isEmptyValue, isEmptySpec, specLength, specNumeric, specAbsent]

theorem convertElements_eq (ea : Bool) (l : List RValue) :
    convertElements ea l = specEach (fun e => valueToPlistValue ea (some e)) l := by
  induction l with
  | nil => simp [convertElements, specEach]
  | cons e rest ih =>
    cases h : valueToPlistValue ea (some e) with
    | panic m => simp [convertElements, specEach, h]
    | err er => simp [convertElements, specEach, h]
    | ok pv => simp [convertElements, specEach, h, ih]

theorem convertEntries_eq (l : List (String × RValue)) :
    convertEntries l = specEachEntry (fun e => valueToPlistValue false (some e)) l := by
  induction l with
  | nil => simp [convertEntries, specEachEntry]
  | cons p rest ih =>
    obtain ⟨k, v⟩ := p
    cases h : valueToPlistValue false (some v) with
    | panic m => simp [convertEntries, specEachEntry, h]
    | err er => simp [convertEntries, specEachEntry, h]
    | ok pv => simp [convertEntries, specEachEntry, h, ih]

theorem structFields_eq (a : Bool) (fs : List FieldDesc) :
    structFields a fs = specStructFold a fs := by
  induction fs with
  | nil => simp [structFields, specStructFold]
  | cons f rest ih =>
    obtain ⟨n, om, fv⟩ := f
    cases fv with
    | none => simp [structFields, specStructFold, ih]
    | some frv =>
      rw [show structFields a ((n, om, some frv) :: rest) =
        (if om && isEmptyValue frv then structFields a rest
         else
          match valueToPlistValue a (some frv) with
          | .panic m => .panic m
          | .err er => .err er
          | .ok pv =>
            match structFields a rest with
            | .panic m => .panic m
            | .err er => .err er
            | .ok ds => .ok ((n, pv) :: ds)) from by
          simp [structFields]]
      rw [isEmpty_eq_spec]
      by_cases hoe : (om && isEmptySpec frv) = true
      · simp [specStructFold, hoe, ih]
      · cases h : valueToPlistValue a (some frv) with
        | panic m => simp [specStructFold, hoe, h]
        | err er => simp [specStructFold, hoe, h]
        | ok pv => simp [specStructFold, hoe, h, ih]

theorem specEach_ok_of_all (f : RValue → Res (Option PValue)) (l : List RValue)
    (h : ∀ x ∈ l, isOkRes (f x)) :
    specEach f l = Res.ok (l.map fun x => resVal (f x)) := by
  induction l with
  | nil => simp [specEach]
  | cons e rest ih =>
    obtain ⟨v, hv⟩ := h e (List.mem_cons_self e rest)
    rw [show specEach f (e :: rest) =
      (match f e with
       | .panic m => .panic m
       | .err er => .err er
       | .ok v =>
         match specEach f rest with
         | .panic m => .panic m
         | .err er => .err er
         | .ok vs => .ok (v :: vs)) from rfl]
    rw [hv, ih fun x hx => h x (List.mem_cons_of_mem e hx)]
    simp [resVal, hv]

theorem specEach_first_err (f : RValue → Res (Option PValue)) (xs : List RValue)
    (y : RValue) (ys : List RValue) (er : GoErr)
    (hxs : ∀ x ∈ xs, isOkRes (f x)) (hy : f y = Res.err er) :
    specEach f (xs ++ y :: ys) = Res.err er := by
  induction xs with
  | nil => simp [specEach, hy]
  | cons e rest ih =>
    obtain ⟨v, hv⟩ := hxs e (List.mem_cons_self e rest)
    rw [List.cons_append]
    rw [show specEach f (e :: (rest ++ y :: ys)) =
      (match f e with
       | .panic m => .panic m
       | .err er => .err er
       | .ok v =>
         match specEach f (rest ++ y :: ys) with
         | .panic m => .panic m
         | .err er => .err er
         | .ok vs => .ok (v :: vs)) from rfl]
    rw [hv, ih fun x hx => hxs x (List.mem_cons_of_mem e hx)]

theorem specEachEntry_ok_of_all (f : RValue → Res (Option PValue))
    (l : List (String × RValue)) (h : ∀ p ∈ l, isOkRes (f p.2)) :
    specEachEntry f l = Res.ok (l.map fun p => (p.1, resVal (f p.2))) := by
  induction l with
  | nil => simp [specEachEntry]
  | cons p rest ih =>
    obtain ⟨k, x⟩ := p
    obtain ⟨v, hv⟩ := h (k, x) (List.mem_cons_self (k, x) rest)
    rw [show specEachEntry f ((k, x) :: rest) =
      (match f x with
       | .panic m => .panic m
       | .err er => .err er
       | .ok v =>
         match specEachEntry f rest with
         | .panic m => .panic m
         | .err er => .err er
         | .ok vs => .ok ((k, v) :: vs)) from rfl]
    rw [hv, ih fun q hq => h q (List.mem_cons_of_mem (k, x) hq)]
    simp [resVal, hv]

theorem specEachEntry_first_err (f : RValue → Res (Option PValue))
    (xs : List (String × RValue)) (k : String) (y : RValue)
    (ys : List (String × RValue)) (er : GoErr)
    (hxs : ∀ p ∈ xs, isOkRes (f p.2)) (hy : f y = Res.err er) :
    specEachEntry f (xs ++ (k, y) :: ys) = Res.err er := by
  induction xs with
  | nil => simp [specEachEntry, hy]
  | cons p rest ih =>
    obtain ⟨k0, x0⟩ := p
    obtain ⟨v, hv⟩ := hxs (k0, x0) (List.mem_cons_self (k0, x0) rest)
    rw [List.cons_append]
    rw [show specEachEntry f ((k0, x0) :: (rest ++ (k, y) :: ys)) =
      (match f x0 with
       | .panic m => .panic m
       | .err er => .err er
       | .ok v =>
         match specEachEntry f (rest ++ (k, y) :: ys) with
         | .panic m => .panic m
         | .err er => .err er
         | .ok vs => .ok ((k0, v) :: vs)) from rfl]
    rw [hv, ih fun q hq => hxs q (List.mem_cons_of_mem (k0, x0) hq)]

theorem bytesOf_map (bs : List Nat) :
    bytesOf (bs.map (RValue.uintv UintW.u8)) = bs := by
  induction bs with
  | nil => simp [bytesOf]
  | cons b rest ih => simp [bytesOf, ih]

theorem specStructFold_keys (a : Bool) (fs : List FieldDesc)
    (ds : List (String × Option PValue)) (hok : specStructFold a fs = Res.ok ds) :
    ∀ k pv, (k, pv) ∈ ds → k ∈ fs.map (fun f => f.1) := by
  induction fs generalizing ds with
  | nil =>
    simp only [specStructFold] at hok
    cases hok
    simp
  | cons f rest ih =>
    obtain ⟨n, om, fv⟩ := f
    intro k pv hm
    cases fv with
    | none =>
      simp only [specStructFold] at hok
      exact List.mem_cons_of_mem _ (ih ds hok k pv hm)
    | some frv =>
      by_cases hsk : (om && isEmptySpec frv) = true
      · simp only [specStructFold, hsk, if_pos] at hok
        exact List.mem_cons_of_mem _ (ih ds hok k pv hm)
      · simp only [specStructFold, hsk, if_neg, Bool.false_eq_true, not_false_eq_true,
          if_false] at hok
        cases hv : valueToPlistValue a (some frv) with
        | panic m => rw [hv] at hok; cases hok
        | err er => rw [hv] at hok; cases hok
        | ok pv0 =>
          rw [hv] at hok
          cases hr : specStructFold a rest with
          | panic m => rw [hr] at hok; cases hok
          | err er => rw [hr] at hok; cases hok
          | ok ds' =>
            rw [hr] at hok
            cases hok
            rcases List.mem_cons.mp hm with hhd | htl
            · cases hhd
              exact List.mem_cons_self _ _
            · exact List.mem_cons_of_mem _ (ih ds' hr k pv htl)

theorem specStructFold_mem_iff (a : Bool) (fs : List FieldDesc)
    (hnd : (fs.map (fun f => f.1)).Nodup)
    (n : String) (om : Bool) (fv : Option RValue) (hmem : (n, om, fv) ∈ fs)
    (ds : List (String × Option PValue)) (hok : specStructFold a fs = Res.ok ds) :
    (∃ pv, (n, pv) ∈ ds) ↔ (∃ frv, fv = some frv ∧ ¬(om = true ∧ isEmptySpec frv = true)) := by
  induction fs generalizing ds with
  | nil => cases hmem
  | cons f rest ih =>
    obtain ⟨n0, om0, fv0⟩ := f
    obtain ⟨hn0, hndr⟩ := List.nodup_cons.mp (by rw [List.map_cons] at hnd; exact hnd)
    rcases List.mem_cons.mp hmem with heq | hrest
    · cases heq
      cases fv with
      | none =>
        simp only [specStructFold] at hok
        constructor
        · rintro ⟨pv, hpv⟩
          exact absurd (specStructFold_keys a rest ds hok n pv hpv) hn0
        · rintro ⟨frv, hfrv, -⟩
          cases hfrv
      | some frv =>
        by_cases hsk : (om && isEmptySpec frv) = true
        · simp only [specStructFold, hsk, if_pos] at hok
          constructor
          · rintro ⟨pv, hpv⟩
            exact absurd (specStructFold_keys a rest ds hok n pv hpv) hn0
          · rintro ⟨frv', hfrv', hne⟩
            cases hfrv'
            exact absurd ⟨(Bool.and_eq_true _ _).mp hsk |>.1,
              (Bool.and_eq_true _ _).mp hsk |>.2⟩ hne
        · simp only [specStructFold, hsk, if_neg, Bool.false_eq_true, not_false_eq_true,
            if_false] at hok
          cases hv : valueToPlistValue a (some frv) with
          | panic m => rw [hv] at hok; cases hok
          | err er => rw [hv] at hok; cases hok
          | ok pv0 =>
            rw [hv] at hok
            cases hr : specStructFold a rest with
            | panic m => rw [hr] at hok; cases hok
            | err er => rw [hr] at hok; cases hok
            | ok ds' =>
              rw [hr] at hok
              cases hok
              constructor
              · intro _
                refine ⟨frv, rfl, ?_⟩
                intro ⟨hom, hemp⟩
                rw [hom, hemp] at hsk
                simp at hsk
              · intro _
                exact ⟨pv0, List.mem_cons_self _ _⟩
    · have hne : n ≠ n0 := by
        intro hcontra
        apply hn0
        subst hcontra
        exact List.mem_map_of_mem (fun f => f.1) hrest
      cases fv0 with
      | none =>
        simp only [specStructFold] at hok
        exact ih hndr hrest ds hok
      | some frv0 =>
        by_cases hsk : (om0 && isEmptySpec frv0) = true
        · simp only [specStructFold, hsk, if_pos] at hok
          exact ih hndr hrest ds hok
        · simp only [specStructFold, hsk, if_neg, Bool.false_eq_true, not_false_eq_true,
            if_false] at hok
          cases hv : valueToPlistValue a (some frv0) with
          | panic m => rw [hv] at hok; cases hok
          | err er => rw [hv] at hok; cases hok
          | ok pv0 =>
            rw [hv] at hok
            cases hr : specStructFold a rest with
            | panic m => rw [hr] at hok; cases hok
            | err er => rw [hr] at hok; cases hok
            | ok ds' =>
              rw [hr] at hok
              cases hok
              rw [← ih hndr hrest ds' hr]
              constructor
              · rintro ⟨pv, hpv⟩
                rcases List.mem_cons.mp hpv with hhd | htl
                · exact absurd (congrArg Prod.fst hhd) hne
                · exact ⟨pv, htl⟩
              · rintro ⟨pv, hpv⟩
                exact ⟨pv, List.mem_cons_of_mem _ hpv⟩

/-- Claim C1: the claim says an invalid/absent input (the zero Value, a nil
pointer, a nil interface) converts to "absent" (nil tree, nil error) and
never crashes.  The code instead panics: line 86 runs `val.Type()` before
the `IsValid` check of line 88, and unwrapping a nil pointer or nil
interface at lines 105-106 calls `Type` on the zero Value.  This theorem
evaluates the embedded code at those failing inputs. -/
theorem c1_absent_inputs_panic :
    valueToPlistValue false none = Res.panic typeOnZeroValuePanic ∧
    valueToPlistValue false (some (RValue.ptr (GoType.int IntW.i) none)) =
      Res.panic typeOnZeroValuePanic ∧
    valueToPlistValue false (some (RValue.iface none)) =
      Res.panic typeOnZeroValuePanic :=
  ⟨vtpv_invalid false, vtpv_ptr_nil false (GoType.int IntW.i) rfl, vtpv_iface_nil false⟩

/-- Claim C2, counterexample: converting a pointer to a pointer to an
integer does not resolve to the innermost integer (as the claim's recursive
re-entry would give); it fails with `UnknownTypeError` on the once-unwrapped
type `*int`, while converting the innermost value directly yields an
Integer node. -/
theorem c2_double_pointer_counterexample :
    valueToPlistValue false (some (RValue.ptr (GoType.ptr (GoType.int IntW.i))
        (some (RValue.ptr (GoType.int IntW.i) (some (RValue.intv IntW.i 7)))))) =
      Res.err (GoErr.unknownType (GoType.ptr (GoType.int IntW.i))) ∧
    valueToPlistValue false (some (RValue.intv IntW.i 7)) =
      Res.ok (some (PValue.intS 7)) := by
  constructor
  · rw [vtpv_ptr_some false (GoType.ptr (GoType.int IntW.i)) _ rfl]
    simp [afterIndirection, kindSwitch, rtype]
  · exact vtpv_int false IntW.i 7

/-- Claim C2, amended: the converter unwraps exactly one level of
pointer/interface indirection in place and continues within the same
invocation (the struct check and kind switch, `afterIndirection`), without
re-entering the algorithm; consequently a second level of indirection falls
to the kind switch's default case and fails with `UnknownTypeError` naming
the once-unwrapped pointer type. -/
theorem c2_single_unwrap_inline (a : Bool) (t : GoType) (inner : RValue)
    (h : implementsTM (GoType.ptr t) = false) :
    valueToPlistValue a (some (RValue.ptr t (some inner))) =
      afterIndirection true inner ∧
    ∀ (p : Option RValue),
      valueToPlistValue a (some (RValue.ptr (GoType.ptr t) (some (RValue.ptr t p)))) =
        Res.err (GoErr.unknownType (GoType.ptr t)) := by
  constructor
  · exact vtpv_ptr_some a t inner h
  · intro p
    rw [vtpv_ptr_some a (GoType.ptr t) (RValue.ptr t p) (by simp [implementsTM])]
    simp [afterIndirection, kindSwitch, rtype]

/-- Witness for C2's amended theorem at a concrete input. -/
theorem c2_single_unwrap_inline_witness :
    valueToPlistValue false (some (RValue.ptr (GoType.int IntW.i)
        (some (RValue.intv IntW.i 5)))) = afterIndirection true (RValue.intv IntW.i 5) ∧
    valueToPlistValue false (some (RValue.ptr (GoType.ptr (GoType.int IntW.i))
        (some (RValue.ptr (GoType.int IntW.i) none)))) =
      Res.err (GoErr.unknownType (GoType.ptr (GoType.int IntW.i))) :=
  ⟨(c2_single_unwrap_inline false (GoType.int IntW.i) (RValue.intv IntW.i 5) rfl).1,
   (c2_single_unwrap_inline false (GoType.int IntW.i) (RValue.intv IntW.i 5) rfl).2 none⟩

/-- Claim C3: when the value's type implements `encoding.TextMarshaler`
(or, the value being addressable, its address's type does), conversion
returns the marshaler's output as a String-kind node, or its error
unchanged — it never reaches the struct handling of lines 109-111, even for
a record-shaped value, because lines 93-101 return first; the value-level
probe of line 93 precedes the address-level probe of lines 96-100. -/
theorem c3_text_marshaler_precedence (a : Bool) (rv : RValue) (r : Except GoErr String)
    (hcap : implementsTM (rtype rv) = true ∨
      (a = true ∧ ptrImplementsTM (rtype rv) = true))
    (hm : marshalText rv = some r) :
    valueToPlistValue a (some rv) =
      (match r with
       | Except.ok s => Res.ok (some (PValue.str s))
       | Except.error e => Res.err e) := by
  have hout : valueToPlistValue a (some rv) = marshalOutcome rv := by
    cases him : implementsTM (rtype rv) with
    | true => exact vtpv_marshal a rv him
    | false =>
      rcases hcap with h1 | ⟨ha, hp⟩
      · rw [him] at h1; cases h1
      · subst ha; exact vtpv_addr_marshal rv him hp
  rw [hout]
  cases r <;> simp [marshalOutcome, hm]

/-- Witness for C3 at concrete inputs: a record-shaped value with a
value-receiver marshaler converts to the marshaler's String output (not to
a Dictionary of its fields), and a failing marshaler's error is returned
unchanged. -/
theorem c3_text_marshaler_precedence_witness :
    valueToPlistValue false (some (RValue.strct ("T") Recv.value (Except.ok ("hello"))
        [(("F"), false, some (RValue.intv IntW.i 1))])) =
      Res.ok (some (PValue.str ("hello"))) ∧
    valueToPlistValue true (some (RValue.strct ("U") Recv.pointer
        (Except.error (GoErr.custom ("boom"))) [])) =
      Res.err (GoErr.custom ("boom")) :=
  ⟨c3_text_marshaler_precedence false
     (RValue.strct ("T") Recv.value (Except.ok ("hello"))
       [(("F"), false, some (RValue.intv IntW.i 1))])
     (Except.ok ("hello")) (Or.inl rfl) rfl,
   c3_text_marshaler_precedence true
     (RValue.strct ("U") Recv.pointer (Except.error (GoErr.custom ("boom"))) [])
     (Except.error (GoErr.custom ("boom"))) (Or.inr ⟨rfl, rfl⟩) rfl⟩

/-- Claim C4: a slice or array whose element type is not `uint8` converts
elementwise in source order, exactly as the spec's fail-fast elementwise
conversion (`specEach`); when every element converts, the result is an
Array node of the converted elements in order; the first failing element's
error aborts the whole conversion with no partial Array. -/
theorem c4_sequence_fail_fast (a : Bool) (et : GoType) (elems : List RValue)
    (h : ¬ et = GoType.uint UintW.u8) :
    valueToPlistValue a (some (RValue.slice et elems)) =
      wrapArray (specEach (fun e => valueToPlistValue true (some e)) elems) ∧
    valueToPlistValue a (some (RValue.array et elems)) =
      wrapArray (specEach (fun e => valueToPlistValue a (some e)) elems) ∧
    ((∀ e ∈ elems, isOkRes (valueToPlistValue true (some e))) →
      valueToPlistValue a (some (RValue.slice et elems)) =
        Res.ok (some (PValue.arr
          (elems.map fun e => resVal (valueToPlistValue true (some e)))))) ∧
    (∀ xs y ys er, elems = xs ++ y :: ys →
      (∀ x ∈ xs, isOkRes (valueToPlistValue true (some x))) →
      valueToPlistValue true (some y) = Res.err er →
      valueToPlistValue a (some (RValue.slice et elems)) = Res.err er) := by
  refine ⟨?_, ?_, ?_, ?_⟩
  · rw [vtpv_slice_gen a et elems h, convertElements_eq]
  · rw [vtpv_array_gen a et elems h, convertElements_eq]
  · intro hall
    rw [vtpv_slice_gen a et elems h, convertElements_eq,
      specEach_ok_of_all _ elems hall]
    rfl
  · intro xs y ys er hsplit hxs hy
    rw [vtpv_slice_gen a et elems h, convertElements_eq, hsplit,
      specEach_first_err _ xs y ys er hxs hy]
    rfl

/-- Witness for C4 at concrete inputs: a two-element bool slice converts to
an ordered Array, and a slice whose second element is a non-string-keyed
map aborts with that element's error. -/
theorem c4_sequence_fail_fast_witness :
    valueToPlistValue false (some (RValue.slice GoType.bool
        [RValue.boolv true, RValue.boolv false])) =
      Res.ok (some (PValue.arr [some (PValue.boolean true), some (PValue.boolean false)])) ∧
    valueToPlistValue false (some (RValue.slice GoType.bool
        [RValue.boolv true, RValue.mapv GoType.bool GoType.bool []])) =
      Res.err (GoErr.unknownType (GoType.map GoType.bool GoType.bool)) := by
  constructor
  · have hall : ∀ e ∈ [RValue.boolv true, RValue.boolv false],
        isOkRes (valueToPlistValue true (some e)) := by
      intro e he
      rcases List.mem_cons.mp he with rfl | he2
      · exact ⟨some (PValue.boolean true), vtpv_bool true true⟩
      · rcases List.mem_cons.mp he2 with rfl | he3
        · exact ⟨some (PValue.boolean false), vtpv_bool true false⟩
        · cases he3
    have hc := (c4_sequence_fail_fast false GoType.bool
      [RValue.boolv true, RValue.boolv false] (by decide)).2.2.1 hall
    simpa [vtpv_bool, resVal] using hc
  · have hxs : ∀ x ∈ [RValue.boolv true], isOkRes (valueToPlistValue true (some x)) := by
      intro x hx
      rcases List.mem_cons.mp hx with rfl | hx2
      · exact ⟨some (PValue.boolean true), vtpv_bool true true⟩
      · cases hx2
    exact (c4_sequence_fail_fast false GoType.bool
      [RValue.boolv true, RValue.mapv GoType.bool GoType.bool []] (by decide)).2.2.2
      [RValue.boolv true] (RValue.mapv GoType.bool GoType.bool []) [] _ rfl hxs
      (vtpv_map_nonstring true GoType.bool GoType.bool [] (by decide))

/-- Claim C5: a string-keyed map converts entrywise exactly as the spec's
fail-fast entrywise conversion (`specEachEntry`); when every value
converts, the Dictionary holds exactly one entry per mapping entry with the
value recursively converted; the first failing value aborts the whole
conversion; a map keyed by any non-string type fails with
`UnknownTypeError` naming the map's type. -/
theorem c5_map_to_dictionary (a : Bool) (kt vt : GoType)
    (entries : List (String × RValue)) :
    valueToPlistValue a (some (RValue.mapv GoType.string vt entries)) =
      wrapDict (specEachEntry (fun x => valueToPlistValue false (some x)) entries) ∧
    ((∀ p ∈ entries, isOkRes (valueToPlistValue false (some p.2))) →
      valueToPlistValue a (some (RValue.mapv GoType.string vt entries)) =
        Res.ok (some (PValue.dict (entries.map fun p =>
          (p.1, resVal (valueToPlistValue false (some p.2))))))) ∧
    (∀ xs k y ys er, entries = xs ++ (k, y) :: ys →
      (∀ p ∈ xs, isOkRes (valueToPlistValue false (some p.2))) →
      valueToPlistValue false (some y) = Res.err er →
      valueToPlistValue a (some (RValue.mapv GoType.string vt entries)) = Res.err er) ∧
    (¬ kt = GoType.string →
      valueToPlistValue a (some (RValue.mapv kt vt entries)) =
        Res.err (GoErr.unknownType (GoType.map kt vt))) := by
  refine ⟨?_, ?_, ?_, ?_⟩
  · rw [vtpv_map_string a vt entries, convertEntries_eq]
  · intro hall
    rw [vtpv_map_string a vt entries, convertEntries_eq,
      specEachEntry_ok_of_all _ entries hall]
    rfl
  · intro xs k y ys er hsplit hxs hy
    rw [vtpv_map_string a vt entries, convertEntries_eq, hsplit,
      specEachEntry_first_err _ xs k y ys er hxs hy]
    rfl
  · intro hkt
    exact vtpv_map_nonstring a kt vt entries hkt

/-- Witness for C5 at concrete inputs: the spec's example map converts to
the expected Dictionary, and an int-keyed map fails with `UnknownTypeError`
naming the map type. -/
theorem c5_map_to_dictionary_witness :
    valueToPlistValue false (some (RValue.mapv GoType.string (GoType.int IntW.i)
        [(("a"), RValue.intv IntW.i 1), (("b"), RValue.intv IntW.i 2)])) =
      Res.ok (some (PValue.dict
        [(("a"), some (PValue.intS 1)), (("b"), some (PValue.intS 2))])) ∧
    valueToPlistValue false (some (RValue.mapv (GoType.int IntW.i) (GoType.int IntW.i) [])) =
      Res.err (GoErr.unknownType (GoType.map (GoType.int IntW.i) (GoType.int IntW.i))) := by
  constructor
  · have hall : ∀ p ∈ [(("a"), RValue.intv IntW.i 1), (("b"), RValue.intv IntW.i 2)],
        isOkRes (valueToPlistValue false (some p.2)) := by
      intro p hp
      rcases List.mem_cons.mp hp with rfl | hp2
      · exact ⟨some (PValue.intS 1), vtpv_int false IntW.i 1⟩
      · rcases List.mem_cons.mp hp2 with rfl | hp3
        · exact ⟨some (PValue.intS 2), vtpv_int false IntW.i 2⟩
        · cases hp3
    have hc := (c5_map_to_dictionary false (GoType.int IntW.i) (GoType.int IntW.i)
      [(("a"), RValue.intv IntW.i 1), (("b"), RValue.intv IntW.i 2)]).2.1 hall
    simpa [vtpv_int, resVal] using hc
  · exact (c5_map_to_dictionary false (GoType.int IntW.i) (GoType.int IntW.i) []).2.2.2
      (by decide)

theorem structToPlistValue_eq (a : Bool) (fs : List FieldDesc) :
    structToPlistValue a fs = wrapDict (specStructFold a fs) := by
  rw [show structToPlistValue a fs =
    (match structFields a fs with
     | Res.panic m => Res.panic m
     | Res.err e => Res.err e
     | Res.ok ds => Res.ok (some (PValue.dict ds))) from by
    simp [structToPlistValue]]
  rw [structFields_eq]
  cases specStructFold a fs <;> simp [wrapDict]

/-- Claim C6: a record converts by folding the Type-Info Provider's
descriptors in order exactly as the spec's fold (`specStructFold`): a
field's key is absent from the resulting Dictionary exactly when the
extracted value is invalid or its omit-if-empty flag is set and the
Emptiness Predicate judges it empty, the first field failure aborting the
record; in particular the record
`(Name: text, omit-if-empty, value "") (Count: int, value 0)` converts to a
Dictionary containing only `Count ↦ Integer 0`. -/
theorem c6_struct_field_policy :
    (∀ (a : Bool) (nm : String) (m : Except GoErr String) (fields : List FieldDesc),
      valueToPlistValue a (some (RValue.strct nm Recv.none m fields)) =
        wrapDict (specStructFold a fields)) ∧
    (∀ (a : Bool) (nm : String) (m : Except GoErr String) (fields : List FieldDesc),
      (fields.map (fun f => f.1)).Nodup →
      ∀ (n : String) (om : Bool) (fv : Option RValue), (n, om, fv) ∈ fields →
      ∀ ds, valueToPlistValue a (some (RValue.strct nm Recv.none m fields)) =
          Res.ok (some (PValue.dict ds)) →
      ((∃ pv, (n, pv) ∈ ds) ↔
        (∃ frv, fv = some frv ∧ ¬(om = true ∧ isEmptyValue frv = true)))) ∧
    valueToPlistValue false (some (RValue.strct ("R") Recv.none (Except.ok (""))
        [(("Name"), true, some (RValue.str (""))),
         (("Count"), false, some (RValue.intv IntW.i 0))])) =
      Res.ok (some (PValue.dict [(("Count"), some (PValue.intS 0))])) := by
  have hbase : ∀ (a : Bool) (nm : String) (m : Except GoErr String)
      (fields : List FieldDesc),
      valueToPlistValue a (some (RValue.strct nm Recv.none m fields)) =
        wrapDict (specStructFold a fields) := by
    intro a nm m fields
    rw [vtpv_struct a nm m fields, structToPlistValue_eq]
  refine ⟨hbase, ?_, ?_⟩
  · intro a nm m fields hnd n om fv hmem ds hok
    rw [hbase a nm m fields] at hok
    cases hr : specStructFold a fields with
    | panic mm => rw [hr] at hok; simp [wrapDict] at hok
    | err e => rw [hr] at hok; simp [wrapDict] at hok
    | ok ds' =>
      rw [hr] at hok
      simp only [wrapDict, Res.ok.injEq, Option.some.injEq, PValue.dict.injEq] at hok
      subst hok
      have := specStructFold_mem_iff a fields hnd n om fv hmem ds' hr
      simpa [isEmpty_eq_spec] using this
  · rw [hbase false ("R") (Except.ok (""))
      [(("Name"), true, some (RValue.str (""))),
       (("Count"), false, some (RValue.intv IntW.i 0))]]
    simp [specStructFold, isEmptySpec, specLength, vtpv_int, wrapDict]

/-- Witness for C6's field-omission rule at the concrete example record:
the `Name` key (empty text, omit-if-empty) is absent from the resulting
Dictionary. -/
theorem c6_struct_field_policy_witness :
    ¬ ∃ pv, ((("Name") : String), pv) ∈ [(("Count"), some (PValue.intS 0))] := by
  have hiff := c6_struct_field_policy.2.1 false ("R") (Except.ok (""))
    [(("Name"), true, some (RValue.str (""))),
     (("Count"), false, some (RValue.intv IntW.i 0))]
    (by decide) ("Name") true (some (RValue.str ("")))
    (List.mem_cons_self _ _) [(("Count"), some (PValue.intS 0))]
    c6_struct_field_policy.2.2
  intro hex
  obtain ⟨frv, hfrv, hne⟩ := hiff.mp hex
  cases hfrv
  exact hne ⟨rfl, by decide⟩

/-- Claim C7: an unsigned source of any width (`Uint` … `Uint64`, line 118)
converts to an Integer node whose payload is the unsigned magnitude
(`val.Uint()`, an `uint64` payload, embedded as `PValue.intU` over `Nat`),
a signed source of any width to an Integer node with signed payload
(`val.Int()`, an `int64` payload, `PValue.intS` over `Int`), and the two
payload forms are distinct — an unsigned magnitude is never reinterpreted
as a (negative) signed number. -/
theorem c7_integer_signedness :
    (∀ (a : Bool) (w : UintW) (n : Nat),
      valueToPlistValue a (some (RValue.uintv w n)) = Res.ok (some (PValue.intU n))) ∧
    (∀ (a : Bool) (w : IntW) (i : Int),
      valueToPlistValue a (some (RValue.intv w i)) = Res.ok (some (PValue.intS i))) ∧
    (∀ (n : Nat) (m : Int), PValue.intU n ≠ PValue.intS m) :=
  ⟨vtpv_uint, vtpv_int, fun _ _ h => PValue.noConfusion h⟩

/-- Witness for C7 at a magnitude exceeding the signed 63-bit range. -/
theorem c7_integer_signedness_witness :
    valueToPlistValue false (some (RValue.uintv UintW.u64 9223372036854775808)) =
      Res.ok (some (PValue.intU 9223372036854775808)) :=
  c7_integer_signedness.1 false UintW.u64 9223372036854775808

/-- Claim C8: a slice or array of `uint8` elements converts to a Data node
whose byte payload equals the source bytes, for either value of the
`CanAddr` flag (the `val.Bytes()` view of line 128 and the `reflect.Copy`
of lines 130-131 observe the same bytes). -/
theorem c8_byte_sequence_data (a : Bool) (bs : List Nat) :
    valueToPlistValue a (some (RValue.slice (GoType.uint UintW.u8)
        (bs.map (RValue.uintv UintW.u8)))) = Res.ok (some (PValue.data bs)) ∧
    valueToPlistValue a (some (RValue.array (GoType.uint UintW.u8)
        (bs.map (RValue.uintv UintW.u8)))) = Res.ok (some (PValue.data bs)) := by
  constructor
  · rw [vtpv_slice_bytes, bytesOf_map]
  · rw [vtpv_array_bytes, bytesOf_map]

/-- Claim C9: the code's `isEmptyValue` agrees with the spec's Emptiness
Predicate (phrased as `isEmptySpec`, following the spec's words) on every
value: length-zero for sequences, mappings and text; false for booleans;
zero for numerics; absence for nullable references; never empty otherwise. -/
theorem c9_emptiness_predicate (v : RValue) : isEmptyValue v = isEmptySpec v :=
  isEmpty_eq_spec v

/-- Claim C10: the kind switch of lines 113-162, its `default` case
included, yields an outcome for every addressability flag and every runtime
value, so the `return nil, errors.New` of line 163 (the `none` branch of
`afterIndirection`) is unreachable. -/
theorem c10_kind_switch_total (a : Bool) (rv : RValue) :
    (kindSwitch a rv).isSome = true := by
  cases rv <;> simp only [kindSwitch] <;> first
    | rfl
    | (split <;> rfl)
